import Mathlib

/-!
Shallow embedding of `scheduler-script.py`: a single-process script scheduler
backed by a SQLite store.  Timestamps are modelled as seconds (`Nat` for the
scheduling core, `Int` for the retention sweeper, which subtracts datetimes).
A calendar day is a fixed 86400 seconds.  OS services (filesystem lookups,
path resolution, process launch, log-directory naming) are modelled as an
explicit environment of pure functions.
-/

namespace Sched

/-- One day in seconds (`datetime.date` granularity of `now.date()`). -/
def secondsPerDay : Nat := 86400

/-- `now.date()` turned back into a timestamp: midnight of the current day. -/
def dateOf (now : Nat) : Nat := now / secondsPerDay * secondsPerDay

/-- `datetime.datetime.combine(now.date(), start_time)`. -/
def combine (now startSecs : Nat) : Nat := dateOf now + startSecs

/-- Value of a digit string, as `int(...)` reads the group matched by `\d+`. -/
def digitsToNat (ds : List Char) : Nat :=
  ds.foldl (fun acc c => acc * 10 + (c.toNat - 48)) 0

/-- `s.endswith(suffix)`, via character lists so concrete terms reduce. -/
def str_ends_with (s suffix : String) : Bool :=
  suffix.toList.isSuffixOf s.toList

/-- `s.startswith(pre)`, via character lists so concrete terms reduce. -/
def str_starts_with (s pre : String) : Bool :=
  pre.toList.isPrefixOf s.toList

/-- `os.path.join(a, b)` (POSIX branch): an absolute second component wins,
otherwise the components are glued with a single separator. -/
def path_join (a b : String) : String :=
  if str_starts_with b "/" then b
  else if a = "" then b
  else if str_ends_with a "/" then a ++ b
  else a ++ "/" ++ b

/-- `Scheduler.parse_interval`: `re.match(r"(\d+)([hms])", repeat_time)`.
`re.match` anchors at the start of the string only: it takes the maximal
leading digit run, requires the next character to be a unit letter, and
ignores everything after it.  `none` models the raised `ValueError`
(`InvalidIntervalFormat`).  The result is the interval in seconds
(`timedelta.total_seconds()`). -/
def parse_interval (repeat_time : String) : Option Nat :=
  let cs := repeat_time.toList
  let ds := cs.takeWhile Char.isDigit
  if ds.isEmpty then none
  else
    match cs.drop ds.length with
    | 'h' :: _ => some (digitsToNat ds * 3600)
    | 'm' :: _ => some (digitsToNat ds * 60)
    | 's' :: _ => some (digitsToNat ds)
    | _ => none

/-- One `%H`/`%M`/`%S` field of `strptime`: one or two leading digits,
greedily. -/
def read_two_digits : List Char → Option (Nat × List Char)
  | [] => none
  | c :: rest =>
    if c.isDigit then
      match rest with
      | c2 :: rest2 =>
        if c2.isDigit then some ((c.toNat - 48) * 10 + (c2.toNat - 48), rest2)
        else some (c.toNat - 48, c2 :: rest2)
      | [] => some (c.toNat - 48, [])
    else none

/-- `datetime.datetime.strptime(s, "%H:%M:%S").time()` as seconds-of-day.
The whole string must be consumed and the fields must be in range
(hours 0-23, minutes and seconds 0-59). -/
def strptime_hms (s : String) : Option Nat :=
  match read_two_digits s.toList with
  | none => none
  | some (h, rest1) =>
    match rest1 with
    | ':' :: rest2 =>
      match read_two_digits rest2 with
      | none => none
      | some (m, rest3) =>
        match rest3 with
        | ':' :: rest4 =>
          match read_two_digits rest4 with
          | none => none
          | some (sec, rest5) =>
            if rest5 = [] ∧ h ≤ 23 ∧ m ≤ 59 ∧ sec ≤ 59 then
              some (h * 3600 + m * 60 + sec)
            else none
        | _ => none
    | _ => none

/-- The `"24:00:00"` → `"00:00:00"` normalization at the top of
`Scheduler.schedule_job`. -/
def normalize_start (s : String) : String :=
  if s = "24:00:00" then "00:00:00" else s

/-- A row of the `jobs` table. -/
structure JobRow where
  id : String
  name : String
  working_dir : Option String
  script : String
  python_exec : String
  venv : Option String
  start_time : String
  repeat_time : String
  next_run : Nat
  interval_seconds : Nat
  log_retention : Option Int
  log_path : Option String
  active : Nat
  created_at : Nat
  updated_at : Nat
  deriving Repr, DecidableEq

/-- A row of the `job_runs` table.  `id` models the AUTOINCREMENT key. -/
structure RunRow where
  id : Nat
  job_id : String
  start_time : Nat
  end_time : Option Nat
  status : String
  log_file : String
  deriving Repr, DecidableEq

/-- The SQLite database: `jobs`, `job_runs` and `config` tables. -/
structure DB where
  jobs : List JobRow
  job_runs : List RunRow
  config : List (String × String)
  deriving Repr, DecidableEq

/-- `DatabaseManager.save_job`: upsert by `id`.  An UPDATE overwrites every
field except `created_at` and stamps `updated_at`; an INSERT stamps both. -/
def save_job (db : DB) (now : Nat) (j : JobRow) : DB :=
  if db.jobs.any (fun r => r.id == j.id) then
    { db with
      jobs := db.jobs.map (fun r =>
        if r.id == j.id then
          { j with created_at := r.created_at, updated_at := now }
        else r) }
  else
    { db with jobs := db.jobs ++ [{ j with created_at := now, updated_at := now }] }

/-- `DatabaseManager.get_all_jobs`: `SELECT * FROM jobs WHERE active = 1`. -/
def get_all_jobs (db : DB) : List JobRow :=
  db.jobs.filter (fun r => r.active == 1)

/-- `DatabaseManager.get_job`:
`SELECT * FROM jobs WHERE id = ? AND active = 1`, first row. -/
def get_job (db : DB) (job_id : String) : Option JobRow :=
  (db.jobs.filter (fun r => r.id == job_id && r.active == 1)).head?

/-- `DatabaseManager.deactivate_job`:
`UPDATE jobs SET active = 0, updated_at = ? WHERE id = ?`; returns
`rowcount > 0`. -/
def deactivate_job (db : DB) (now : Nat) (job_id : String) : Bool × DB :=
  (db.jobs.any (fun r => r.id == job_id),
   { db with
     jobs := db.jobs.map (fun r =>
       if r.id == job_id then { r with active := 0, updated_at := now } else r) })

/-- `DatabaseManager.record_job_run`: INSERT a `running` row, return
`lastrowid` (modelled as one past the current row count). -/
def record_job_run (db : DB) (now : Nat) (job_id log_file : String) : Nat × DB :=
  let run_id := db.job_runs.length + 1
  (run_id,
   { db with
     job_runs := db.job_runs ++
       [{ id := run_id, job_id := job_id, start_time := now, end_time := none,
          status := "running", log_file := log_file }] })

/-- `DatabaseManager.update_job_run`:
`UPDATE job_runs SET status = ?, end_time = ? WHERE id = ?`. -/
def update_job_run (db : DB) (now : Nat) (run_id : Nat) (status : String) : DB :=
  { db with
    job_runs := db.job_runs.map (fun r =>
      if r.id == run_id then { r with status := status, end_time := some now } else r) }

/-- The OS services the script calls, as pure functions: `os.path.isfile`,
`pathlib.Path(...).resolve()` (cwd- and symlink-dependent, so opaque here),
`os.path.normpath`, `subprocess.run` success (command, working dir),
`LogManager.get_job_log_directory` (name, repeat_time), and
`LogManager.get_job_log_file` (job id). -/
structure Env where
  isFile : String → Bool
  resolve : String → String
  normpath : String → String
  runOk : List String → Option String → Bool
  logDir : String → String → String
  logFile : String → String

/-- The `dangerous_chars` list of `ConfigManager.validate_script_path`.
(`Char.ofNat 96` is the backquote.) -/
def dangerous_chars : List Char :=
  ['|', '&', ';', '$', '>', '<', Char.ofNat 96, '\\']

/-- `ConfigManager.validate_script_path`.  The raw path is scanned for the
first dangerous character; then the `os.path.normpath`-normalized path must
end in `.py` and name an existing file.  `Except.error` models the raised
`ValueError` (`InvalidScriptPath`). -/
def validate_script_path (env : Env) (script_path : String) : Except String Unit :=
  let normalized := env.normpath script_path
  match dangerous_chars.find? (fun c => script_path.toList.contains c) with
  | some c => Except.error ("invalid script path: disallowed character " ++ toString c)
  | none =>
    if !str_ends_with normalized ".py" then
      Except.error "script must have the .py extension"
    else if !env.isFile normalized then
      Except.error "script does not exist"
    else Except.ok ()

/-- Venv interpreter resolution in `ScriptExecutor.execute` (POSIX branch):
`os.path.join(venv, 'bin', 'python')`, else the bare executable name. -/
def resolve_python (python_exec : String) (venv : Option String) : String :=
  match venv with
  | some v => path_join (path_join v "bin") "python"
  | none => python_exec

/-- `ScriptExecutor.secure_command`: resolve the (working-dir-joined) script
path, require it to exist with suffix `.py`, and return the argv list.
`none` models the raised `ValueError` — note it checks existence and
extension only, not shell metacharacters. -/
def secure_command (env : Env) (script python_path : String)
    (working_dir : Option String) : Option (List String) :=
  let script_path := env.resolve
    (match working_dir with
     | some wd => path_join wd script
     | none => script)
  if env.isFile script_path && str_ends_with script_path ".py" then
    some [python_path, script_path]
  else none

/-- `ScriptExecutor.execute`: obtain the log file, INSERT a `running` run row,
then resolve the interpreter and validate the script path via
`secure_command`; a validation failure or a failed launch is caught and the
run row is transitioned to `error` (returning `False`), a clean exit
transitions it to `success` (returning `True`). -/
def execute (env : Env) (db : DB) (now : Nat)
    (job_id job_name script repeat_time python_exec : String)
    (venv working_dir : Option String) : Bool × DB :=
  let log_file := env.logFile job_id
  let rec1 := record_job_run db now job_id log_file
  match secure_command env script (resolve_python python_exec venv) working_dir with
  | none => (false, update_job_run rec1.2 now rec1.1 "error")
  | some cmd =>
    if env.runOk cmd working_dir then (true, update_job_run rec1.2 now rec1.1 "success")
    else (false, update_job_run rec1.2 now rec1.1 "error")

/-- The `while first_run <= now: first_run += interval` loop of
`calculate_next_run`, with explicit fuel: `none` models non-termination
within the given fuel, so facts proved of a `some` result hold of the
Python loop whenever it terminates. -/
def calc_next_run_loop (now interval : Nat) : Nat → Nat → Option Nat
  | 0, first_run => if first_run ≤ now then none else some first_run
  | fuel + 1, first_run =>
    if first_run ≤ now then calc_next_run_loop now interval fuel (first_run + interval)
    else some first_run

/-- `Scheduler.schedule_job`: normalize the start time, parse the interval
and the start time, run `calculate_next_run` from today's date combined
with the start time, reuse an existing log path or assign one, and upsert
the job row (active, with the computed `next_run`).  `none` models a raised
parse error (nothing is persisted) or a diverging loop.  Returns the
`(next_run, interval)` pair and the updated database. -/
def schedule_job (env : Env) (db : DB) (fuel now : Nat)
    (job_id job_name start_time_str repeat_time script python_exec : String)
    (venv : Option String) (log_retention : Option Int)
    (working_dir : Option String) : Option ((Nat × Nat) × DB) :=
  let start_str := normalize_start start_time_str
  match parse_interval repeat_time with
  | none => none
  | some interval =>
    match strptime_hms start_str with
    | none => none
    | some start_secs =>
      match calc_next_run_loop now interval fuel (combine now start_secs) with
      | none => none
      | some next_run_time =>
        let log_path :=
          match get_job db job_id with
          | some j =>
            match j.log_path with
            | some p => p
            | none => env.logDir job_name repeat_time
          | none => env.logDir job_name repeat_time
        let job_info : JobRow :=
          { id := job_id, name := job_name, working_dir := working_dir,
            script := script, python_exec := python_exec, venv := venv,
            start_time := start_str, repeat_time := repeat_time,
            next_run := next_run_time, interval_seconds := interval,
            log_retention := log_retention, log_path := some log_path,
            active := 1, created_at := 0, updated_at := 0 }
        some ((next_run_time, interval), save_job db now job_info)

/-- The `job_wrapper` closure inside `Scheduler.schedule_job`: one firing.
It executes the script (result ignored for scheduling), advances
`next_run` by exactly one interval, and persists the job.  Re-registration
with the `schedule` library is outside the store and not modelled. -/
def job_wrapper (env : Env) (db : DB) (now : Nat) (job_info : JobRow) : JobRow × DB :=
  let ex := execute env db now job_info.id job_info.name job_info.script
    job_info.repeat_time job_info.python_exec job_info.venv job_info.working_dir
  let job2 := { job_info with next_run := job_info.next_run + job_info.interval_seconds }
  (job2, save_job ex.2 now job2)

/-- Startup recovery for one stored job (the `run` command, line 674 of the
source): `schedule_job` is called again on the stored fields — the stored
`next_run` itself is not passed in. -/
def recover_job (env : Env) (db : DB) (fuel now : Nat) (j : JobRow) :
    Option ((Nat × Nat) × DB) :=
  schedule_job env db fuel now j.id j.name j.start_time j.repeat_time j.script
    j.python_exec j.venv j.log_retention j.working_dir

/-- A file seen by `os.walk`, with its full path and `os.path.getctime`. -/
structure LogFile where
  name : String
  ctime : Int
  deriving Repr, DecidableEq

/-- One directory of the `os.walk` traversal: the contents of its
`retention.txt` when that file is present, and its files in listing order. -/
structure LogDir where
  retention_file : Option String
  files : List LogFile
  deriving Repr, DecidableEq

/-- Is `c` stripped by `str.strip()`? -/
def is_space_char (c : Char) : Bool :=
  c == ' ' || c == '\t' || c == '\n' || c == '\r'

/-- The digits of a decimal literal read by `int(...)`, or `none`. -/
def parse_nat_chars (cs : List Char) : Option Nat :=
  if cs.isEmpty then none
  else if cs.all Char.isDigit then some (digitsToNat cs) else none

/-- `int(s.strip())` with a sign, as used on `retention.txt` contents. -/
def parse_int_chars : List Char → Option Int
  | '-' :: rest => (parse_nat_chars rest).map (fun n => -(n : Int))
  | '+' :: rest => (parse_nat_chars rest).map (fun n => (n : Int))
  | cs => (parse_nat_chars cs).map (fun n => (n : Int))

/-- `int(f.read().strip())` with the fallback to the global retention on any
parse failure (the inner `except` of `clear_old_logs`). -/
def parse_retention (s : String) (global_retention : Int) : Int :=
  match parse_int_chars ((s.toList.dropWhile is_space_char).reverse.dropWhile
      is_space_char |>.reverse) with
  | some n => n
  | none => global_retention

/-- The retention window (in days) chosen for one directory: the
`retention.txt` override when present, otherwise the global default. -/
def dir_retention (d : LogDir) (global_retention : Int) : Int :=
  match d.retention_file with
  | some s => parse_retention s global_retention
  | none => global_retention

/-- The inner file loop of `LogManager.clear_old_logs` for one directory.
A file is removed when `now - file_creation_time > retention_period`
(strict).  `removeFails p = true` models `os.remove(p)` raising; the
exception propagates to the handler wrapping the whole walk, so the pair's
second component records that the sweep aborted and no later file is
touched.  Returns the deleted paths in order. -/
def sweep_dir_files (removeFails : String → Bool) (now window_secs : Int) :
    List LogFile → List String × Bool
  | [] => ([], false)
  | f :: rest =>
    if now - f.ctime > window_secs then
      if removeFails f.name then ([], true)
      else
        let t := sweep_dir_files removeFails now window_secs rest
        (f.name :: t.1, t.2)
    else sweep_dir_files removeFails now window_secs rest

/-- The `os.walk` loop of `LogManager.clear_old_logs`: each directory's
window is `dir_retention` (days, converted to seconds); an abort inside
one directory (a raised `os.remove` caught by the single `try/except`
around the whole walk) ends the entire sweep. -/
def clear_old_logs_walk (removeFails : String → Bool) (now global_retention : Int) :
    List LogDir → List String × Bool
  | [] => ([], false)
  | d :: rest =>
    let t := sweep_dir_files removeFails now (dir_retention d global_retention * 86400) d.files
    if t.2 then (t.1, true)
    else
      let t2 := clear_old_logs_walk removeFails now global_retention rest
      (t.1 ++ t2.1, t2.2)

/-- `LogManager.clear_old_logs` including the 24-hour gate: without `force`,
a sweep within 86400 seconds of the last check returns immediately
(`none` = no sweep performed). -/
def clear_old_logs (removeFails : String → Bool) (force : Bool)
    (last_check now global_retention : Int) (dirs : List LogDir) :
    Option (List String × Bool) :=
  if !force && now - last_check < 86400 then none
  else some (clear_old_logs_walk removeFails now global_retention dirs)

/-- The sweep as §4.5 of the spec words it: for every directory, exactly the
files whose creation time is older than now minus that directory's window
are deleted.  Stated separately so the walk can be proved to refine it. -/
def retention_filter_spec (now global_retention : Int) : List LogDir → List String
  | [] => []
  | d :: rest =>
    (d.files.filter (fun f =>
        decide (now - f.ctime > dir_retention d global_retention * 86400))).map LogFile.name
      ++ retention_filter_spec now global_retention rest

/-- Forget the two fields `deactivate_job` is allowed to change, to state
that it changes nothing else. -/
def scrub_audit (r : JobRow) : JobRow := { r with active := 0, updated_at := 0 }

/-- A benign environment: no file exists, processes fail, fixed log names. -/
def env0 : Env :=
  { isFile := fun _ => false, resolve := fun p => p, normpath := fun p => p,
    runOk := fun _ _ => false, logDir := fun _ _ => "logs/j",
    logFile := fun _ => "logs/j/run.log" }

/-- An environment in which the file `a;b.py` exists and processes succeed. -/
def envY : Env :=
  { env0 with isFile := fun p => p == "a;b.py", runOk := fun _ _ => true }

/-- An empty database. -/
def emptyDB : DB := { jobs := [], job_runs := [], config := [] }

/-- A stored job: start 10:00:00, interval 7 h, persisted `next_run` at
day 0, 17:00:00 (= start + one interval), still active. -/
def j7h : JobRow :=
  { id := "job1", name := "n", working_dir := none, script := "s.py",
    python_exec := "python", venv := none, start_time := "10:00:00",
    repeat_time := "7h", next_run := 61200, interval_seconds := 25200,
    log_retention := none, log_path := some "logs/j", active := 1,
    created_at := 0, updated_at := 0 }

/-- A database holding only `j7h`. -/
def db7h : DB := { jobs := [j7h], job_runs := [], config := [] }

/-- An hourly job whose in-memory `next_run` is far behind the clock. -/
def jW : JobRow :=
  { id := "jobw", name := "w", working_dir := none, script := "s.py",
    python_exec := "python", venv := none, start_time := "00:00:00",
    repeat_time := "1h", next_run := 0, interval_seconds := 3600,
    log_retention := none, log_path := some "logs/j", active := 1,
    created_at := 0, updated_at := 0 }

/-- A database holding only `jW`. -/
def dbW : DB := { jobs := [jW], job_runs := [], config := [] }

/-- A deletable log file in the first swept directory. -/
def fX : LogFile := { name := "logs/a/x.log", ctime := 0 }

/-- An equally old log file in a later swept directory. -/
def fY : LogFile := { name := "logs/b/y.log", ctime := 0 }

/-- First directory of a sweep: no override, one old file. -/
def dirA : LogDir := { retention_file := none, files := [fX] }

/-- Second directory of a sweep: no override, one old file. -/
def dirB : LogDir := { retention_file := none, files := [fY] }

/-- A deletion oracle under which removing exactly `fX` raises. -/
def removeFailsX : String → Bool := fun p => p == "logs/a/x.log"

/-- A file created 8 days before time 8640000 (day 100). -/
def f8d : LogFile := { name := "logs/s/f8.log", ctime := 7948800 }

/-- A file created 6 days before time 8640000. -/
def f6d : LogFile := { name := "logs/s/f6.log", ctime := 8121600 }

/-- A file created 2 days before time 8640000. -/
def f2d : LogFile := { name := "logs/o/f2.log", ctime := 8467200 }

/-- A directory with no override holding the 8- and 6-day-old files. -/
def dirS : LogDir := { retention_file := none, files := [f8d, f6d] }

/-- A directory whose `retention.txt` reads `1`, holding the 2-day-old file. -/
def dirO : LogDir := { retention_file := some "1", files := [f2d] }

/-! ### Helper lemmas -/

theorem save_job_job_runs (db : DB) (now : Nat) (j : JobRow) :
    (save_job db now j).job_runs = db.job_runs := by
  unfold save_job; split <;> rfl

theorem save_job_next_run_of_id (db : DB) (now : Nat) (j x : JobRow)
    (hx : x ∈ (save_job db now j).jobs) (hid : x.id = j.id) :
    x.next_run = j.next_run := by
  unfold save_job at hx
  by_cases h : db.jobs.any (fun r => r.id == j.id)
  · rw [if_pos h] at hx
    simp only [List.mem_map] at hx
    obtain ⟨y, _, hxy⟩ := hx
    by_cases hyid : y.id == j.id
    · rw [if_pos hyid] at hxy; rw [← hxy]
    · rw [if_neg hyid] at hxy
      rw [← hxy] at hid
      exact absurd (beq_iff_eq.mpr hid) hyid
  · rw [if_neg h] at hx
    simp only [List.mem_append, List.mem_singleton] at hx
    rcases hx with hx | hx
    · rw [List.any_eq_true] at h
      exact absurd ⟨x, hx, beq_iff_eq.mpr hid⟩ h
    · rw [hx]

theorem calc_next_run_loop_sound (now interval : Nat) :
    ∀ fuel first_run r : Nat,
      calc_next_run_loop now interval fuel first_run = some r →
      now < r ∧ ∃ k, r = first_run + k * interval := by
  intro fuel
  induction fuel with
  | zero =>
    intro fr r h
    simp only [calc_next_run_loop] at h
    split at h
    · exact absurd h (by simp)
    · cases h; exact ⟨by omega, 0, by ring⟩
  | succ fuel ih =>
    intro fr r h
    simp only [calc_next_run_loop] at h
    split at h
    · obtain ⟨h1, k, hk⟩ := ih (fr + interval) r h
      exact ⟨h1, k + 1, by rw [hk]; ring⟩
    · cases h; exact ⟨by omega, 0, by ring⟩

theorem calc_next_run_loop_term (now interval : Nat) (hpos : 0 < interval) :
    ∀ fuel first_run : Nat, now < first_run + fuel * interval →
      ∃ r, calc_next_run_loop now interval fuel first_run = some r := by
  intro fuel
  induction fuel with
  | zero =>
    intro fr h
    simp only [Nat.zero_mul, Nat.add_zero] at h
    simp only [calc_next_run_loop]
    rw [if_neg (by omega)]
    exact ⟨fr, rfl⟩
  | succ fuel ih =>
    intro fr h
    simp only [calc_next_run_loop]
    by_cases hle : fr ≤ now
    · rw [if_pos hle]
      apply ih
      rw [Nat.succ_mul] at h
      omega
    · rw [if_neg hle]
      exact ⟨fr, rfl⟩

theorem calc_next_run_loop_zero_interval (now : Nat) :
    ∀ fuel first_run : Nat, first_run ≤ now →
      calc_next_run_loop now 0 fuel first_run = none := by
  intro fuel
  induction fuel with
  | zero => intro fr h; simp only [calc_next_run_loop]; rw [if_pos h]
  | succ fuel ih =>
    intro fr h
    simp only [calc_next_run_loop]
    rw [if_pos h, Nat.add_zero]
    exact ih fr h

theorem schedule_job_sound (env : Env) (db : DB) (fuel now : Nat)
    (job_id job_name st rt sc pe : String) (venv : Option String)
    (lr : Option Int) (wd : Option String) (r iv : Nat) (db2 : DB)
    (h : schedule_job env db fuel now job_id job_name st rt sc pe venv lr wd
      = some ((r, iv), db2)) :
    now < r ∧ parse_interval rt = some iv ∧
      (∃ t k, strptime_hms (normalize_start st) = some t ∧
        r = dateOf now + t + k * iv) ∧
      db2.job_runs = db.job_runs ∧
      (∀ j ∈ db2.jobs, j.id = job_id → j.next_run = r) := by
  cases hpi : parse_interval rt with
  | none => simp only [schedule_job, hpi] at h; exact Option.noConfusion h
  | some interval =>
    cases hst : strptime_hms (normalize_start st) with
    | none => simp only [schedule_job, hpi, hst] at h; exact Option.noConfusion h
    | some t =>
      cases hcl : calc_next_run_loop now interval fuel (combine now t) with
      | none =>
        simp only [schedule_job, hpi, hst, hcl] at h
        exact Option.noConfusion h
      | some nr =>
        simp only [schedule_job, hpi, hst, hcl, Option.some.injEq,
          Prod.mk.injEq] at h
        obtain ⟨⟨hr, hiv⟩, hdb⟩ := h
        subst hr; subst hiv
        obtain ⟨h1, k, hk⟩ := calc_next_run_loop_sound now interval fuel _ nr hcl
        refine ⟨h1, rfl, ⟨t, k, rfl, by rw [hk]; rfl⟩, ?_, ?_⟩
        · rw [← hdb]; exact save_job_job_runs ..
        · intro j hj hjid
          rw [← hdb] at hj
          exact save_job_next_run_of_id _ now _ j hj hjid

theorem update_record_runs (db : DB) (now : Nat) (jid lf st : String) :
    (update_job_run (record_job_run db now jid lf).2 now
        (record_job_run db now jid lf).1 st).job_runs
      = db.job_runs.map (fun r =>
          if r.id == db.job_runs.length + 1 then
            { r with status := st, end_time := some now } else r)
        ++ [{ id := db.job_runs.length + 1, job_id := jid, start_time := now,
              end_time := some now, status := st, log_file := lf }] := by
  simp [record_job_run, update_job_run]

theorem execute_runs_shape (env : Env) (db : DB) (now : Nat)
    (jid jn sc rt pe : String) (venv wd : Option String) :
    ∃ st : String,
      (execute env db now jid jn sc rt pe venv wd).2.job_runs
        = db.job_runs.map (fun r =>
            if r.id == db.job_runs.length + 1 then
              { r with status := st, end_time := some now } else r)
          ++ [{ id := db.job_runs.length + 1, job_id := jid, start_time := now,
                end_time := some now, status := st,
                log_file := env.logFile jid }] := by
  cases h : secure_command env sc (resolve_python pe venv) wd with
  | none =>
    refine ⟨"error", ?_⟩
    simp only [execute, h]
    exact update_record_runs db now jid (env.logFile jid) "error"
  | some cmd =>
    by_cases hr : env.runOk cmd wd
    · refine ⟨"success", ?_⟩
      simp only [execute, h, hr, if_true]
      exact update_record_runs db now jid (env.logFile jid) "success"
    · refine ⟨"error", ?_⟩
      simp only [execute, h, hr, if_false, Bool.false_eq_true]
      exact update_record_runs db now jid (env.logFile jid) "error"

theorem getLast?_append_singleton {α : Type} (l : List α) (a : α) :
    (l ++ [a]).getLast? = some a := by
  rw [List.getLast?_append_cons]; rfl

theorem toList_mk (l : List Char) : (String.mk l).toList = l := rfl

theorem takeWhile_digits_append :
    ∀ ds : List Char, (∀ c ∈ ds, c.isDigit = true) →
      ∀ rest : List Char, (∀ c, rest.head? = some c → c.isDigit = false) →
        (ds ++ rest).takeWhile Char.isDigit = ds := by
  intro ds
  induction ds with
  | nil =>
    intro _ rest hrest
    cases rest with
    | nil => rfl
    | cons c r => simp [List.takeWhile_cons, hrest c rfl]
  | cons d ds ih =>
    intro hds rest hrest
    rw [List.cons_append, List.takeWhile_cons,
      if_pos (hds d (List.mem_cons_self d ds)),
      ih (fun c hc => hds c (List.mem_cons_of_mem d hc)) rest hrest]

theorem parse_interval_reduces (ds rest : List Char) (u : Char)
    (hne : ds ≠ []) (hds : ∀ c ∈ ds, c.isDigit = true) (hu : u.isDigit = false) :
    parse_interval (String.mk (ds ++ u :: rest))
      = (match u :: rest with
         | 'h' :: _ => some (digitsToNat ds * 3600)
         | 'm' :: _ => some (digitsToNat ds * 60)
         | 's' :: _ => some (digitsToNat ds)
         | _ => none) := by
  obtain ⟨d, ds2, rfl⟩ := List.exists_cons_of_ne_nil hne
  simp only [parse_interval, toList_mk]
  rw [takeWhile_digits_append (d :: ds2) hds (u :: rest)
    (fun c hc => by injection hc with h; rw [← h]; exact hu)]
  simp only [List.isEmpty_cons, List.drop_left]
  rw [if_neg (by simp)]

theorem parse_interval_no_digit (s : String)
    (h : ∀ c, s.toList.head? = some c → c.isDigit = false) :
    parse_interval s = none := by
  simp only [parse_interval]
  cases hs : s.toList with
  | nil => rfl
  | cons c r =>
    have hc := h c (by rw [hs]; rfl)
    simp [List.takeWhile_cons, hc]

theorem parse_interval_digits_only (ds : List Char)
    (hds : ∀ c ∈ ds, c.isDigit = true) :
    parse_interval (String.mk ds) = none := by
  cases ds with
  | nil => rfl
  | cons d ds2 =>
    simp only [parse_interval, toList_mk]
    have ht : (d :: ds2).takeWhile Char.isDigit = d :: ds2 := by
      have := takeWhile_digits_append (d :: ds2) hds []
        (fun c hc => by exact absurd hc (by simp))
      rwa [List.append_nil] at this
    rw [ht]
    simp only [List.isEmpty_cons, List.drop_length]
    rw [if_neg (by simp)]

theorem deactivate_map_id (job_id : String) (now : Nat) :
    ∀ l : List JobRow,
      (l.map (fun r =>
        if r.id == job_id then { r with active := 0, updated_at := now }
        else r)).map JobRow.id = l.map JobRow.id := by
  intro l
  induction l with
  | nil => rfl
  | cons r l ih =>
    simp only [List.map_cons, ih]
    by_cases h : r.id == job_id
    · rw [if_pos h]
    · rw [if_neg h]

theorem deactivate_map_scrub (job_id : String) (now : Nat) :
    ∀ l : List JobRow,
      (l.map (fun r =>
        if r.id == job_id then { r with active := 0, updated_at := now }
        else r)).map scrub_audit = l.map scrub_audit := by
  intro l
  induction l with
  | nil => rfl
  | cons r l ih =>
    simp only [List.map_cons, ih]
    by_cases h : r.id == job_id
    · rw [if_pos h]; rfl
    · rw [if_neg h]

theorem deactivate_filter_active (job_id : String) (now : Nat) :
    ∀ l : List JobRow,
      (l.map (fun r =>
        if r.id == job_id then { r with active := 0, updated_at := now }
        else r)).filter (fun r => r.active == 1)
      = (l.filter (fun r => r.active == 1)).filter (fun r => !(r.id == job_id)) := by
  intro l
  induction l with
  | nil => rfl
  | cons r l ih =>
    by_cases h : r.id = job_id <;> by_cases ha : r.active = 1 <;>
      simpa [List.filter_cons, h, ha] using ih

/-! ### Claim theorems -/

/-- C3: one firing of the `job_wrapper` closure executes the job exactly once
(exactly one run record is appended, and it belongs to this job) and
advances `next_run` by exactly one `repeatInterval`, however many intervals
have elapsed; missed intervals are never backfilled as extra executions. -/
theorem C3_tick_single_fire (env : Env) (db : DB) (now : Nat) (ji : JobRow) :
    (job_wrapper env db now ji).1.next_run = ji.next_run + ji.interval_seconds
    ∧ (job_wrapper env db now ji).2.job_runs.length = db.job_runs.length + 1
    ∧ ((job_wrapper env db now ji).2.job_runs.getLast?).map RunRow.job_id
        = some ji.id := by
  have hjr : (job_wrapper env db now ji).2.job_runs
      = (execute env db now ji.id ji.name ji.script ji.repeat_time
          ji.python_exec ji.venv ji.working_dir).2.job_runs := by
    simp only [job_wrapper]
    exact save_job_job_runs ..
  obtain ⟨st, hst⟩ := execute_runs_shape env db now ji.id ji.name ji.script
    ji.repeat_time ji.python_exec ji.venv ji.working_dir
  refine ⟨rfl, ?_, ?_⟩
  · rw [hjr, hst]; simp
  · rw [hjr, hst, getLast?_append_singleton]; rfl

/-- C9: deactivating a job only clears its `active` flag and stamps
`updated_at`: the run-history table is untouched, no job row is deleted,
row ids are unchanged, every field other than `active`/`updated_at` is
unchanged, and the job no longer appears in the active listing. -/
theorem C9_deactivate_frame (db : DB) (now : Nat) (job_id : String) :
    (deactivate_job db now job_id).2.job_runs = db.job_runs
    ∧ (deactivate_job db now job_id).2.jobs.length = db.jobs.length
    ∧ (deactivate_job db now job_id).2.jobs.map JobRow.id = db.jobs.map JobRow.id
    ∧ (deactivate_job db now job_id).2.jobs.map scrub_audit
        = db.jobs.map scrub_audit
    ∧ get_all_jobs (deactivate_job db now job_id).2
        = (get_all_jobs db).filter (fun r => !(r.id == job_id)) := by
  refine ⟨rfl, by simp [deactivate_job], ?_, ?_, ?_⟩
  · exact deactivate_map_id job_id now db.jobs
  · exact deactivate_map_scrub job_id now db.jobs
  · exact deactivate_filter_active job_id now db.jobs

/-- C10: whenever the parsed repeat interval is strictly positive, the
`while first_run <= now` loop of `calculate_next_run` terminates (some
fuel yields a result); positivity is essential, because `parse_interval`
itself accepts `"0s"`, an interval of zero duration, on which the loop
runs forever whenever its starting point is not already past `now`. -/
theorem C10_next_run_terminates :
    (∀ now interval start_secs : Nat, 0 < interval →
      ∃ fuel r, calc_next_run_loop now interval fuel (combine now start_secs)
        = some r)
    ∧ parse_interval "0s" = some 0
    ∧ (∀ now start_secs : Nat, combine now start_secs ≤ now →
        ∀ fuel, calc_next_run_loop now 0 fuel (combine now start_secs) = none) := by
  refine ⟨?_, by decide, ?_⟩
  · intro now interval s hpos
    refine ⟨now + 1, calc_next_run_loop_term now interval hpos (now + 1)
      (combine now s) ?_⟩
    have h1 : (now + 1) * 1 ≤ (now + 1) * interval :=
      Nat.mul_le_mul_left (now + 1) hpos
    rw [Nat.mul_one] at h1
    omega
  · intro now s h fuel
    exact calc_next_run_loop_zero_interval now fuel _ h

/-- C10 witness: a positive interval (one hour, start 10:00:00, clock
10:05:00) terminates, and a zero interval with the start already due
diverges at every fuel. -/
theorem C10_witness :
    (∃ fuel r, calc_next_run_loop 36300 3600 fuel (combine 36300 36000) = some r)
    ∧ calc_next_run_loop 86400 0 7 (combine 86400 0) = none :=
  ⟨C10_next_run_terminates.1 36300 3600 36000 (by decide),
   C10_next_run_terminates.2.2 86400 0 (by decide) 7⟩

/-- C7: when `schedule_job` succeeds, the computed `next_run` is strictly
after the scheduling instant and equals today's date combined with the
parsed `startTime` plus an integer multiple of the parsed
`repeatInterval`. -/
theorem C7_schedule_next_run (env : Env) (db : DB) (fuel now : Nat)
    (job_id job_name st rt sc pe : String) (venv : Option String)
    (lr : Option Int) (wd : Option String) (r iv : Nat) (db2 : DB)
    (h : schedule_job env db fuel now job_id job_name st rt sc pe venv lr wd
      = some ((r, iv), db2)) :
    now < r ∧ parse_interval rt = some iv ∧
      ∃ t k, strptime_hms (normalize_start st) = some t ∧
        r = dateOf now + t + k * iv := by
  obtain ⟨h1, h2, h3, _, _⟩ :=
    schedule_job_sound env db fuel now job_id job_name st rt sc pe venv lr wd
      r iv db2 h
  exact ⟨h1, h2, h3⟩

/-- C7 witness: scheduling `10:00:00` / `1h` at clock 36300 (10:05:00)
computes `next_run` 39600 (11:00:00), strictly in the future and
start-time aligned. -/
theorem C7_witness :
    36300 < 39600 ∧ parse_interval "1h" = some 3600 ∧
      ∃ t k, strptime_hms (normalize_start "10:00:00") = some t ∧
        39600 = dateOf 36300 + t + k * 3600 :=
  C7_schedule_next_run env0 emptyDB 10 36300 "job1" "n" "10:00:00" "1h" "s.py"
    "python" none none none 39600 3600 _ rfl

/-- C5 (counterexample): the claim says a zero value and trailing extra
characters fail with `InvalidIntervalFormat`, but `re.match` accepts a
zero value (`"0s"` parses to zero seconds) and ignores everything after
the unit letter (`"1hx"` parses to one hour). -/
theorem C5_counterexample :
    parse_interval "0s" = some 0 ∧ parse_interval "1hx" = some 3600 := by
  decide

/-- C5 (amended): a string beginning with a digit run followed by a unit in
`h`/`m`/`s` parses to that many units — the value may be zero and any
trailing characters after the unit are ignored; a string with no leading
digit, a digit run with no unit letter after it, or a non-unit character
after the digits fails with `InvalidIntervalFormat`. -/
theorem C5_parse_interval :
    (∀ ds rest : List Char, ds ≠ [] → (∀ c ∈ ds, c.isDigit = true) →
      parse_interval (String.mk (ds ++ 'h' :: rest)) = some (digitsToNat ds * 3600))
    ∧ (∀ ds rest : List Char, ds ≠ [] → (∀ c ∈ ds, c.isDigit = true) →
      parse_interval (String.mk (ds ++ 'm' :: rest)) = some (digitsToNat ds * 60))
    ∧ (∀ ds rest : List Char, ds ≠ [] → (∀ c ∈ ds, c.isDigit = true) →
      parse_interval (String.mk (ds ++ 's' :: rest)) = some (digitsToNat ds))
    ∧ (∀ s : String, (∀ c, s.toList.head? = some c → c.isDigit = false) →
      parse_interval s = none)
    ∧ (∀ ds : List Char, (∀ c ∈ ds, c.isDigit = true) →
      parse_interval (String.mk ds) = none)
    ∧ (∀ (ds rest : List Char) (u : Char), ds ≠ [] →
      (∀ c ∈ ds, c.isDigit = true) → u.isDigit = false →
      u ≠ 'h' → u ≠ 'm' → u ≠ 's' →
      parse_interval (String.mk (ds ++ u :: rest)) = none) := by
  refine ⟨?_, ?_, ?_, parse_interval_no_digit, parse_interval_digits_only, ?_⟩
  · intro ds rest hne hds
    rw [parse_interval_reduces ds rest 'h' hne hds (by decide)]
    rfl
  · intro ds rest hne hds
    rw [parse_interval_reduces ds rest 'm' hne hds (by decide)]
    rfl
  · intro ds rest hne hds
    rw [parse_interval_reduces ds rest 's' hne hds (by decide)]
    rfl
  · intro ds rest u hne hds hu hh hm hs
    rw [parse_interval_reduces ds rest u hne hds hu]
    split
    · next heq => injection heq with e1 e2; exact absurd e1 hh
    · next heq => injection heq with e1 e2; exact absurd e1 hm
    · next heq => injection heq with e1 e2; exact absurd e1 hs
    · rfl

/-- C5 witness: `"3h"` parses to 10800 seconds; `"12"` (digits without a
unit) fails. -/
theorem C5_witness :
    parse_interval "3h" = some 10800 ∧ parse_interval "12" = none := by
  constructor
  · exact C5_parse_interval.1 ['3'] [] (by decide) (by decide)
  · exact C5_parse_interval.2.2.2.2.1 ['1', '2'] (by decide)

/-- C2 (counterexample): after a firing, `job_wrapper` performs exactly one
advance with no repeat loop: with stored `next_run` 0 and a one-hour
interval, firing at clock 10000 persists `next_run` 3600, which is not
strictly greater than now. -/
theorem C2_counterexample :
    (job_wrapper env0 dbW 10000 jW).2.jobs.map JobRow.next_run = [3600]
    ∧ 3600 ≤ 10000 := by
  decide

/-- C2 (amended): the strictly-in-the-future property holds where the
loading path touches a job — a successful `schedule_job` persists a
`next_run` strictly greater than now (its `while` loop repeats the
advance) — but on firing `job_wrapper` adds exactly one interval, which
can remain `<= now`; no repeated advance happens at firing time. -/
theorem C2_next_run_future :
    (∀ (env : Env) (db : DB) (fuel now : Nat)
        (job_id job_name st rt sc pe : String) (venv : Option String)
        (lr : Option Int) (wd : Option String) (r iv : Nat) (db2 : DB),
      schedule_job env db fuel now job_id job_name st rt sc pe venv lr wd
          = some ((r, iv), db2) →
      now < r ∧ ∀ j ∈ db2.jobs, j.id = job_id → j.next_run = r)
    ∧ (∀ (env : Env) (db : DB) (now : Nat) (ji : JobRow),
      (job_wrapper env db now ji).1.next_run
        = ji.next_run + ji.interval_seconds) := by
  constructor
  · intro env db fuel now jid jn st rt sc pe venv lr wd r iv db2 h
    obtain ⟨h1, _, _, _, h5⟩ := schedule_job_sound env db fuel now jid jn st rt
      sc pe venv lr wd r iv db2 h
    exact ⟨h1, h5⟩
  · intro env db now ji
    rfl

/-- C2 witness: scheduling at clock 36300 persists 39600 > 36300; a firing
advances by exactly one interval. -/
theorem C2_witness :
    36300 < 39600 ∧ (job_wrapper env0 dbW 10000 jW).1.next_run
      = jW.next_run + jW.interval_seconds :=
  ⟨(C2_next_run_future.1 env0 emptyDB 10 36300 "job1" "n" "10:00:00" "1h"
      "s.py" "python" none none none 39600 3600 _ rfl).1,
   C2_next_run_future.2 env0 dbW 10000 jW⟩

/-- C4 (counterexample): recovery re-anchors `next_run` to today's date
combined with the start time instead of advancing the stored value: job
`j7h` (start 10:00:00, interval 7 h, stored `next_run` 61200 = day 0
17:00) recovered at clock 104400 (day 1, 05:00) gets `next_run` 122400
(day 1, 10:00), and 122400 − 61200 = 61200 is not a whole multiple of the
25200-second interval. -/
theorem C4_counterexample :
    (recover_job env0 db7h 10 104400 j7h).map (fun p => p.1.1) = some 122400
    ∧ j7h.next_run = 61200
    ∧ ¬ (25200 ∣ (122400 - 61200)) := by
  decide

/-- C4 (amended): recovery (re-running `schedule_job` on the stored fields)
never touches the run-history table — so it never records or triggers an
execution — and computes a fresh `next_run` strictly after now equal to
today's date plus the start time plus a whole number of intervals; it does
not, in general, differ from the stored `next_run` by a whole number of
intervals. -/
theorem C4_recovery (env : Env) (db : DB) (fuel now : Nat) (j : JobRow)
    (r iv : Nat) (db2 : DB)
    (h : recover_job env db fuel now j = some ((r, iv), db2)) :
    db2.job_runs = db.job_runs ∧ now < r ∧
      parse_interval j.repeat_time = some iv ∧
      ∃ t k, strptime_hms (normalize_start j.start_time) = some t ∧
        r = dateOf now + t + k * iv := by
  obtain ⟨h1, h2, h3, h4, _⟩ := schedule_job_sound env db fuel now j.id j.name
    j.start_time j.repeat_time j.script j.python_exec j.venv j.log_retention
    j.working_dir r iv db2 h
  exact ⟨h4, h1, h2, h3⟩

/-- C4 witness: the `j7h` recovery instance of the amended statement. -/
theorem C4_witness :
    104400 < 122400 ∧ parse_interval j7h.repeat_time = some 25200 ∧
      ∃ t k, strptime_hms (normalize_start j7h.start_time) = some t ∧
        122400 = dateOf 104400 + t + k * 25200 := by
  obtain ⟨_, h2, h3, h4⟩ := C4_recovery env0 db7h 10 104400 j7h 122400 25200 _ rfl
  exact ⟨h2, h3, h4⟩

/-- C1 (counterexample): at execution time the script path is never checked
for shell metacharacters, and the run record is created before any check:
with `a;b.py` present on disk, `execute` runs it and returns `True`,
recording a `success` run — the claim said it must fail with
`InvalidScriptPath` before any run record is created. -/
theorem C1_counterexample :
    (execute envY emptyDB 5 "j" "n" "a;b.py" "1h" "python" none none).1 = true
    ∧ (execute envY emptyDB 5 "j" "n" "a;b.py" "1h" "python" none
        none).2.job_runs.map (fun r => (r.job_id, r.status))
      = [("j", "success")] := by
  decide

/-- C1 (amended): metacharacter validation exists only at configuration
load time — `validate_script_path` rejects any path containing `;` before
anything is persisted — while at execution time `execute` first creates a
`running` run record and only then validates the path (existence and
extension only); on that validation failure it returns `False` and the
run-history table has gained exactly one record, transitioned to
`error`, rather than being unchanged. -/
theorem C1_script_validation :
    (∀ (env : Env) (p : String), p.toList.contains ';' = true →
      ∃ msg, validate_script_path env p = Except.error msg)
    ∧ (∀ (env : Env) (db : DB) (now : Nat) (jid jn sc rt pe : String)
        (venv wd : Option String),
      secure_command env sc (resolve_python pe venv) wd = none →
      (execute env db now jid jn sc rt pe venv wd).1 = false
      ∧ (execute env db now jid jn sc rt pe venv wd).2.job_runs.length
          = db.job_runs.length + 1
      ∧ ((execute env db now jid jn sc rt pe venv wd).2.job_runs.getLast?).map
          (fun r => (r.job_id, r.status)) = some (jid, "error")) := by
  constructor
  · intro env p hp
    cases hf : dangerous_chars.find? (fun c => p.toList.contains c) with
    | some c =>
      exact ⟨"invalid script path: disallowed character " ++ toString c,
        by simp only [validate_script_path, hf]⟩
    | none =>
      rw [List.find?_eq_none] at hf
      exact absurd hp (by simpa using hf ';' (by decide))
  · intro env db now jid jn sc rt pe venv wd h
    refine ⟨?_, ?_, ?_⟩
    · simp only [execute, h]
    · simp only [execute, h]
      rw [update_record_runs db now jid (env.logFile jid) "error"]
      simp
    · simp only [execute, h]
      rw [update_record_runs db now jid (env.logFile jid) "error",
        getLast?_append_singleton]
      rfl

/-- C1 witness: `a;b.py` is rejected by `validate_script_path`, and in an
environment where no file exists, `execute` fails but still appends one
run record. -/
theorem C1_witness :
    (∃ msg, validate_script_path env0 "a;b.py" = Except.error msg)
    ∧ (execute env0 emptyDB 5 "j" "n" "a;b.py" "1h" "python" none none).1 = false
    ∧ (execute env0 emptyDB 5 "j" "n" "a;b.py" "1h" "python" none
        none).2.job_runs.length = emptyDB.job_runs.length + 1 := by
  have h2 := C1_script_validation.2 env0 emptyDB 5 "j" "n" "a;b.py" "1h"
    "python" none none rfl
  exact ⟨C1_script_validation.1 env0 "a;b.py" (by decide), h2.1, h2.2.1⟩

/-- C6 (counterexample): the exception handler wraps the entire walk, so
one failing deletion aborts the whole sweep: with `fX` (old, delete
raises) in the first directory and `fY` in the second, nothing is deleted
and the walk stops, even though `fY` is older than its retention window
and the claim says it would still be examined and deleted. -/
theorem C6_counterexample :
    clear_old_logs_walk removeFailsX 8640000 7 [dirA, dirB] = ([], true)
    ∧ (8640000 : Int) - fY.ctime > 7 * 86400 := by
  decide

/-- C6 (amended): a failure while deleting one file aborts the remainder of
the sweep: within a directory, the files before the failing one are
handled normally and nothing after the failure is touched; at the walk
level, an aborted directory ends the sweep with no later directory
examined. -/
theorem C6_sweep_abort :
    (∀ (rf : String → Bool) (now w : Int) (fs1 : List LogFile) (f : LogFile)
        (fs2 : List LogFile),
      (∀ g ∈ fs1, rf g.name = false) → now - f.ctime > w → rf f.name = true →
      sweep_dir_files rf now w (fs1 ++ f :: fs2)
        = ((fs1.filter (fun g => decide (now - g.ctime > w))).map LogFile.name,
            true))
    ∧ (∀ (rf : String → Bool) (now g : Int) (d : LogDir) (rest : List LogDir),
      (sweep_dir_files rf now (dir_retention d g * 86400) d.files).2 = true →
      clear_old_logs_walk rf now g (d :: rest)
        = ((sweep_dir_files rf now (dir_retention d g * 86400) d.files).1,
            true)) := by
  constructor
  · intro rf now w fs1
    induction fs1 with
    | nil =>
      intro f fs2 _ hold hf
      simp only [List.nil_append, sweep_dir_files, List.filter_nil,
        List.map_nil]
      rw [if_pos hold, if_pos hf]
    | cons g1 fs1 ih =>
      intro f fs2 h1 hold hf
      simp only [List.cons_append, sweep_dir_files, List.append_eq]
      have hg1 := h1 g1 (List.mem_cons_self g1 fs1)
      by_cases hg : now - g1.ctime > w
      · rw [if_pos hg, hg1, if_neg Bool.false_ne_true,
          ih f fs2 (fun g hgm => h1 g (List.mem_cons_of_mem g1 hgm)) hold hf]
        simp [List.filter_cons, hg]
      · rw [if_neg hg,
          ih f fs2 (fun g hgm => h1 g (List.mem_cons_of_mem g1 hgm)) hold hf]
        simp [List.filter_cons, hg]
  · intro rf now g d rest habort
    simp only [clear_old_logs_walk, habort]
    exact if_pos trivial

/-- C6 witness: the failing `fX` aborts both the directory sweep and the
walk at the concrete scenario. -/
theorem C6_witness :
    sweep_dir_files removeFailsX 8640000 (7 * 86400) [fX] = ([], true)
    ∧ clear_old_logs_walk removeFailsX 8640000 7 (dirA :: [dirB])
      = ((sweep_dir_files removeFailsX 8640000 (dir_retention dirA 7 * 86400)
          dirA.files).1, true) := by
  constructor
  · have h := C6_sweep_abort.1 removeFailsX 8640000 (7 * 86400) [] fX []
      (fun g hg => absurd hg (by simp)) (by decide) (by decide)
    simpa using h
  · exact C6_sweep_abort.2 removeFailsX 8640000 7 dirA [dirB] (by decide)

/-- C8: with no deletion failures the sweep deletes exactly the files whose
creation time is older than now minus the directory's window — the
`retention.txt` override when present, the global default otherwise —
and, concretely, with a 7-day global window an 8-day-old file is deleted,
a 6-day-old file is kept, and a 2-day-old file under a 1-day override is
deleted. -/
theorem C8_retention_sweep :
    (∀ (now g : Int) (dirs : List LogDir),
      clear_old_logs_walk (fun _ => false) now g dirs
        = (retention_filter_spec now g dirs, false))
    ∧ clear_old_logs_walk (fun _ => false) 8640000 7 [dirS, dirO]
      = (["logs/s/f8.log", "logs/o/f2.log"], false) := by
  have hfile : ∀ (now w : Int) (fs : List LogFile),
      sweep_dir_files (fun _ => false) now w fs
        = ((fs.filter (fun f => decide (now - f.ctime > w))).map LogFile.name,
            false) := by
    intro now w fs
    induction fs with
    | nil => rfl
    | cons f rest ih =>
      simp only [sweep_dir_files]
      by_cases h : now - f.ctime > w
      · rw [if_pos h, if_neg Bool.false_ne_true, ih]
        simp [List.filter_cons, h]
      · rw [if_neg h, ih]
        simp [List.filter_cons, h]
  constructor
  · intro now g dirs
    induction dirs with
    | nil => rfl
    | cons d rest ih =>
      simp only [clear_old_logs_walk, retention_filter_spec, hfile, ih]
      rw [if_neg Bool.false_ne_true]
  · decide

end Sched
